import Mathlib

/-!
# SaborIA — formal model of the supervisor orchestration core

A shallow embedding of the routing / fan-out / consolidation / retry logic
of the SaborIA multi-agent system (`src/agents/supervisor.py`,
`src/agents/retry.py`, `src/api/main.py`).

External effects (the LLM classifier call, specialist agent calls, the
consolidation call, wall-clock sleeps) are modelled as explicit parameters:
a classifier produces a raw text, specialists produce either a result text
or an exception message, sleeps are recorded as rational delays.
-/

namespace SaborIA

/-! ## Python string primitives

Models of the `str` operations used by `supervisor.py`:
`str.strip`, `str.removeprefix`, `str.removesuffix`, `str.lower`,
and the substring test `needle in haystack`. -/

/-- ASCII whitespace stripped by Python `str.strip()`:
space, tab, newline, carriage return, vertical tab, form feed. -/
def pySpace (c : Char) : Bool :=
  c = ' ' || c = '\t' || c = '\n' || c = '\r' || c = Char.ofNat 11 || c = Char.ofNat 12

/-- Python `str.strip()` (ASCII whitespace). -/
def pyStrip (s : String) : String :=
  String.mk (((s.toList.dropWhile pySpace).reverse.dropWhile pySpace).reverse)

/-- Tests whether `p` begins `l`. -/
def listHasPre : List Char → List Char → Bool
  | [], _ => true
  | _ :: _, [] => false
  | p :: ps, c :: cs => p == c && listHasPre ps cs

/-- Python `str.removeprefix(p)`. -/
def cutPre (s p : String) : String :=
  if listHasPre p.toList s.toList then String.mk (s.toList.drop p.toList.length)
  else s

/-- Python `str.removesuffix(p)`. -/
def cutSuf (s p : String) : String :=
  if listHasPre p.toList.reverse s.toList.reverse then
    String.mk ((s.toList.reverse.drop p.toList.length).reverse)
  else s

/-- Python `str.lower()` (ASCII model). -/
def pyLower (s : String) : String :=
  String.mk (s.toList.map Char.toLower)

/-- Tests whether `needle` occurs somewhere inside `l`. -/
def listContains (needle : List Char) : List Char → Bool
  | [] => listHasPre needle []
  | c :: cs => listHasPre needle (c :: cs) || listContains needle cs

/-- Python `needle in hay` on strings. -/
def strContains (hay needle : String) : Bool :=
  listContains needle.toList hay.toList

/-! ## JSON values and a model of `json.loads`

`SupervisorAgent._route` calls `json.loads` on the classifier text.  The
parser below follows the (strict-mode) JSON grammar accepted by the Python
function `json.loads`: values are objects, arrays, strings (with escape sequences,
control characters rejected), numbers (lexemes kept verbatim, including
the `NaN` / `Infinity` extensions that `json.loads` accepts by default),
booleans and `null`; surrounding whitespace is skipped and trailing
content is an error. -/

inductive Json where
  | null
  | bool (b : Bool)
  | num (lexeme : String)
  | str (s : String)
  | arr (elems : List Json)
  | obj (entries : List (String × Json))

/-- JSON inter-token whitespace. -/
def jsonWs (c : Char) : Bool :=
  c = ' ' || c = '\t' || c = '\n' || c = '\r'

def skipWs : List Char → List Char
  | c :: cs => if jsonWs c then skipWs cs else c :: cs
  | [] => []

/-- Value of a hexadecimal digit. -/
def hexVal (c : Char) : Option Nat :=
  if 48 ≤ c.toNat ∧ c.toNat ≤ 57 then some (c.toNat - 48)
  else if 97 ≤ c.toNat ∧ c.toNat ≤ 102 then some (c.toNat - 87)
  else if 65 ≤ c.toNat ∧ c.toNat ≤ 70 then some (c.toNat - 55)
  else none

/-- Single-character JSON string escapes. -/
def escChar : Char → Option Char
  | '"' => some '"'
  | '\\' => some '\\'
  | '/' => some '/'
  | 'b' => some (Char.ofNat 8)
  | 'f' => some (Char.ofNat 12)
  | 'n' => some '\n'
  | 'r' => some '\r'
  | 't' => some '\t'
  | _ => none

/-- Parse the body of a JSON string (the opening quote already consumed),
accumulating decoded characters in reverse. -/
def parseStrAux : List Char → List Char → Option (String × List Char)
  | _, [] => none
  | acc, c :: cs =>
    if c = '"' then some (String.mk acc.reverse, cs)
    else if c = '\\' then
      match cs with
      | [] => none
      | 'u' :: h1 :: h2 :: h3 :: h4 :: cs2 =>
        match hexVal h1, hexVal h2, hexVal h3, hexVal h4 with
        | some a, some b, some d, some e =>
          parseStrAux (Char.ofNat (((a * 16 + b) * 16 + d) * 16 + e) :: acc) cs2
        | _, _, _, _ => none
      | e :: cs2 =>
        match escChar e with
        | some d => parseStrAux (d :: acc) cs2
        | none => none
    else if c.toNat < 32 then none
    else parseStrAux (c :: acc) cs

/-- Longest digit run at the head of the input. -/
def takeDigits : List Char → List Char × List Char
  | [] => ([], [])
  | c :: cs =>
    if c.isDigit then
      let (d, r) := takeDigits cs
      (c :: d, r)
    else ([], c :: cs)

/-- Integer part of a JSON number: `0`, or a nonzero digit followed by digits. -/
def numInt : List Char → Option (List Char × List Char)
  | [] => none
  | c :: cs =>
    if c = '0' then some (['0'], cs)
    else if c.isDigit then
      let (d, r) := takeDigits cs
      some (c :: d, r)
    else none

/-- Optional fractional part of a JSON number. -/
def numFrac : List Char → Option (List Char × List Char)
  | '.' :: cs =>
    match takeDigits cs with
    | ([], _) => none
    | (ds, r) => some ('.' :: ds, r)
  | cs => some ([], cs)

/-- Optional exponent part of a JSON number. -/
def numExp : List Char → Option (List Char × List Char)
  | [] => some ([], [])
  | c :: cs =>
    if c = 'e' ∨ c = 'E' then
      let (sgn, cs2) : List Char × List Char :=
        match cs with
        | '+' :: r => (['+'], r)
        | '-' :: r => (['-'], r)
        | r => ([], r)
      match takeDigits cs2 with
      | ([], _) => none
      | (ds, r) => some (c :: (sgn ++ ds), r)
    else some ([], c :: cs)

/-- Lex a JSON number, returning its verbatim lexeme. -/
def parseNumLex (cs : List Char) : Option (String × List Char) :=
  let (sgn, cs1) : List Char × List Char :=
    match cs with
    | '-' :: r => (['-'], r)
    | r => ([], r)
  match numInt cs1 with
  | none => none
  | some (ip, cs2) =>
    match numFrac cs2 with
    | none => none
    | some (fp, cs3) =>
      match numExp cs3 with
      | none => none
      | some (ep, cs4) => some (String.mk (sgn ++ ip ++ fp ++ ep), cs4)

mutual

/-- Parse one JSON value (fuel-indexed recursive descent). -/
def parseVal : Nat → List Char → Option (Json × List Char)
  | 0, _ => none
  | fuel + 1, cs0 =>
    let cs := skipWs cs0
    match cs with
    | [] => none
    | '"' :: rest =>
      match parseStrAux [] rest with
      | some (s, r) => some (.str s, r)
      | none => none
    | '[' :: rest =>
      match skipWs rest with
      | ']' :: r => some (.arr [], r)
      | r2 =>
        match parseArrElems fuel r2 with
        | some (vs, r) => some (.arr vs, r)
        | none => none
    | '\x7b' :: rest =>
      match skipWs rest with
      | '\x7d' :: r => some (.obj [], r)
      | r2 =>
        match parseObjEntries fuel r2 with
        | some (es, r) => some (.obj es, r)
        | none => none
    | _ :: _ =>
      if listHasPre "true".toList cs then some (.bool true, cs.drop 4)
      else if listHasPre "false".toList cs then some (.bool false, cs.drop 5)
      else if listHasPre "null".toList cs then some (.null, cs.drop 4)
      else if listHasPre "NaN".toList cs then some (.num "NaN", cs.drop 3)
      else if listHasPre "Infinity".toList cs then some (.num "Infinity", cs.drop 8)
      else if listHasPre "-Infinity".toList cs then some (.num "-Infinity", cs.drop 9)
      else
        match parseNumLex cs with
        | some (lex, r) => some (.num lex, r)
        | none => none

/-- Parse the elements of a non-empty JSON array (opening `[` consumed). -/
def parseArrElems : Nat → List Char → Option (List Json × List Char)
  | 0, _ => none
  | fuel + 1, cs =>
    match parseVal fuel cs with
    | none => none
    | some (v, cs1) =>
      match skipWs cs1 with
      | ',' :: cs2 =>
        match parseArrElems fuel cs2 with
        | some (vs, r) => some (v :: vs, r)
        | none => none
      | ']' :: cs2 => some ([v], cs2)
      | _ => none

/-- Parse the entries of a non-empty JSON object (opening brace consumed). -/
def parseObjEntries : Nat → List Char → Option (List (String × Json) × List Char)
  | 0, _ => none
  | fuel + 1, cs =>
    match skipWs cs with
    | '"' :: rest =>
      match parseStrAux [] rest with
      | none => none
      | some (k, cs1) =>
        match skipWs cs1 with
        | ':' :: cs2 =>
          match parseVal fuel cs2 with
          | none => none
          | some (v, cs3) =>
            match skipWs cs3 with
            | ',' :: cs4 =>
              match parseObjEntries fuel cs4 with
              | some (es, r) => some ((k, v) :: es, r)
              | none => none
            | '\x7d' :: cs4 => some ([(k, v)], cs4)
            | _ => none
        | _ => none
    | _ => none

end

/-- Model of `json.loads`: parse a complete JSON document, rejecting
trailing content. -/
def parseJson (s : String) : Option Json :=
  match parseVal (2 * s.length + 2) s.toList with
  | some (j, rest) => if skipWs rest = [] then some j else none
  | none => none

/-! ## Router (`SupervisorAgent._route` / `._aroute`)

```python
raw = response.content.strip()
raw = raw.removeprefix("```json").removeprefix("```").removesuffix("```").strip()
try:
    agents = json.loads(raw)
    return [a for a in agents if a in self.agents]
except Exception:
    logger.warning(...)
    return ["recommendation"]
```

The `try` block is modelled in `Except Unit`: `.error ()` is a raised
exception.  Iterating a parsed Python value (`for a in agents`) succeeds on
lists (elements), dicts (keys, first-insertion order) and strings
(single-character strings) and raises `TypeError` on numbers, booleans and
`None`; the membership test `a in self.agents` on a `dict` keyed by strings
is `False` for non-string hashable values and raises `TypeError` on
unhashable values (lists, dicts). -/

/-- Keys of `self.agents`, in construction order (`supervisor.py` lines
77–81). -/
def knownAgents : List String := ["nutrition", "recommendation", "quality"]

/-- Key sequence of a Python dict built from a pair list: first-insertion
order, duplicates dropped. -/
def dedupKeysAux (seen : List String) : List String → List String
  | [] => []
  | k :: rest =>
    if seen.contains k then dedupKeysAux seen rest
    else k :: dedupKeysAux (k :: seen) rest

def objKeys (entries : List (String × Json)) : List String :=
  dedupKeysAux [] (entries.map Prod.fst)

/-- Python iteration `for a in agents` over a decoded JSON value.
`.error ()` models `TypeError: ... is not iterable`. -/
def pyIterElems : Json → Except Unit (List Json)
  | .arr xs => .ok xs
  | .obj kvs => .ok ((objKeys kvs).map Json.str)
  | .str s => .ok (s.toList.map fun c => Json.str (String.mk [c]))
  | .num _ => .error ()
  | .bool _ => .error ()
  | .null => .error ()

/-- Python `a in self.agents` for a decoded JSON element: string keys only;
unhashable values (lists, dicts) raise `TypeError`. -/
def agentMembership : Json → Except Unit Bool
  | .str s => .ok (knownAgents.contains s)
  | .num _ => .ok false
  | .bool _ => .ok false
  | .null => .ok false
  | .arr _ => .error ()
  | .obj _ => .error ()

/-- The comprehension `[a for a in agents if a in self.agents]`.  Elements
that pass the membership test are necessarily strings. -/
def filterAgents : List Json → Except Unit (List String)
  | [] => .ok []
  | j :: rest =>
    match agentMembership j with
    | .error _ => .error ()
    | .ok b =>
      match filterAgents rest with
      | .error _ => .error ()
      | .ok tail =>
        match j, b with
        | .str s, true => .ok (s :: tail)
        | _, _ => .ok tail

/-- The string carried by a `Json.str`, if any. -/
def strOf : Json → Option String
  | .str s => some s
  | _ => none

/-- Tests whether a decoded JSON value is hashable in Python (strings,
numbers, booleans, `None`); lists and dicts are unhashable, so their
membership test raises `TypeError`. -/
def hashableJson : Json → Bool
  | .arr _ => false
  | .obj _ => false
  | _ => true

/-- Fence stripping applied to the classifier text before parsing
(`supervisor.py` lines 87–89). -/
def routePre (content : String) : String :=
  let raw := pyStrip content
  pyStrip (cutSuf (cutPre (cutPre raw "```json") "```") "```")

/-- The `try` block of `_route`: parse, iterate, filter.  Any `.error ()`
is an exception caught by the `except` clause. -/
def routeParse (raw : String) : Except Unit (List String) :=
  match parseJson raw with
  | none => .error ()
  | some j =>
    match pyIterElems j with
    | .error _ => .error ()
    | .ok elems => filterAgents elems

/-- Model of `SupervisorAgent._route` (and of `._aroute`, which has the same
body) as a function of the classifier response text. -/
def route (content : String) : List String :=
  match routeParse (routePre content) with
  | .ok l => l
  | .error _ => ["recommendation"]

/-! ## Fan-out executor (`SupervisorAgent.run` / `.arun`)

Specialist outcomes are a map from agent name to `Except String String`:
`.ok text` is a normal return, `.error msg` an exception with message
`msg`.  `agent_outputs` is a Python dict, modelled as an association list
with insert-or-overwrite semantics. -/

/-- Python dict assignment `d[k] = v`: overwrite in place, or append. -/
def dictInsert (d : List (String × String)) (k v : String) :
    List (String × String) :=
  if d.any (fun p => p.1 == k) then
    d.map fun p => if p.1 == k then (k, v) else p
  else d ++ [(k, v)]

/-- The per-specialist error formatting
`f"[Erro no agente {name}: {exc}]"`. -/
def formatAgentError (name msg : String) : String :=
  "[Erro no agente " ++ name ++ ": " ++ msg ++ "]"

/-- Value stored for one specialist: its returned text on success, the
formatted error string on failure (`run` lines 152–157, `_invoke_agent`
lines 183–189). -/
def agentValue (outcome : String → Except String String) (name : String) :
    String :=
  match outcome name with
  | .ok text => text
  | .error msg => formatAgentError name msg

/-- The sequential fan-out loop of `SupervisorAgent.run` (lines 151–157):
build `agent_outputs` by dict assignment, one specialist at a time. -/
def fanOut (outcome : String → Except String String)
    (selected : List String) : List (String × String) :=
  selected.foldl (fun d name => dictInsert d name (agentValue outcome name)) []

/-- The list returned by `asyncio.gather` in `SupervisorAgent.arun`
(line 191): one `(name, output)` pair per selected agent, in selection
order. -/
def gatherResults (outcome : String → Except String String)
    (selected : List String) : List (String × String) :=
  selected.map fun name => (name, agentValue outcome name)

/-- Model of `dict(results)` in `SupervisorAgent.arun` (line 192). -/
def afanOut (outcome : String → Except String String)
    (selected : List String) : List (String × String) :=
  (gatherResults outcome selected).foldl (fun d p => dictInsert d p.1 p.2) []

/-! ## Orchestration (`run` / `arun` after routing) -/

/-- The dict returned by `SupervisorAgent.run` / `.arun` (lines 163–169 and
198–204).  `latency_ms` is wall-clock time, outside the model. -/
structure OrchestrationResult where
  query : String
  agents_used : List String
  agent_outputs : List (String × String)
  response : String

/-- Observable trace of one `run` / `arun` call: how many times the
consolidation step ran, and the outcome of the call (`.error` = the exception
that propagated to the caller). -/
structure RunTrace where
  consolidateCalls : Nat
  outcome : Except String OrchestrationResult

/-- Model of `SupervisorAgent.run` from line 151 on (routing already done):
fan out sequentially, then call `_consolidate` exactly once — unguarded,
so its exception propagates.  `consolidate` maps an `agent_outputs` dict to
the consolidated text or an exception message. -/
def run (consolidate : List (String × String) → Except String String)
    (outcome : String → Except String String) (query : String)
    (selected : List String) : RunTrace :=
  let agent_outputs := fanOut outcome selected
  match consolidate agent_outputs with
  | .error e => ⟨1, .error e⟩
  | .ok final => ⟨1, .ok ⟨query, selected, agent_outputs, final⟩⟩

/-- Model of `SupervisorAgent.arun` from line 183 on: parallel fan-out, gathered in
selection order, then `_aconsolidate` exactly once, unguarded. -/
def arun (consolidate : List (String × String) → Except String String)
    (outcome : String → Except String String) (query : String)
    (selected : List String) : RunTrace :=
  let agent_outputs := afanOut outcome selected
  match consolidate agent_outputs with
  | .error e => ⟨1, .error e⟩
  | .ok final => ⟨1, .ok ⟨query, selected, agent_outputs, final⟩⟩

/-- The full sync pipeline: route on the classifier text, then `run`. -/
def runPipeline (classifierText : String)
    (consolidate : List (String × String) → Except String String)
    (outcome : String → Except String String) (query : String) : RunTrace :=
  run consolidate outcome query (route classifierText)

/-! ## Streaming endpoint (`query_stream_endpoint._event_generator`)

The SSE generator of `src/api/main.py` (lines 128–161) yields a `routing`
event, one `agent` event per task as `asyncio.as_completed` delivers it,
a `response` event, and a `done` event; the surrounding `try` turns any
raised exception into a single `error` event ending the stream.  Inside
the generator, `_invoke` catches every specialist exception, so the only
steps that can raise are `_aroute` and `_aconsolidate`.

The model takes the outcome of the routing call and the task completion order
(`asyncio.as_completed` delivers some permutation of the spawned tasks)
as parameters. -/

inductive StreamEvent where
  | routing (agents : List String)
  | agent (name output : String)
  | response (query : String) (agentsUsed : List String) (text : String)
  | done
  | error (message : String)

/-- The finite event sequence produced by `_event_generator`.
`routeOutcome` is the result of `supervisor._aroute` (`.error` = it raised
after its retries); `order` is the completion order of the specialist
tasks; `consolidate` is applied to the `agent_outputs` dict accumulated in
completion order. -/
def eventStream (routeOutcome : Except String (List String))
    (order : List String) (outcome : String → Except String String)
    (consolidate : List (String × String) → Except String String)
    (query : String) : List StreamEvent :=
  match routeOutcome with
  | .error e => [.error e]
  | .ok selected =>
    let agentEvents := order.map fun n => StreamEvent.agent n (agentValue outcome n)
    let agent_outputs := order.foldl (fun d n => dictInsert d n (agentValue outcome n)) []
    match consolidate agent_outputs with
    | .error e => .routing selected :: agentEvents ++ [.error e]
    | .ok final =>
      .routing selected :: agentEvents ++ [.response query selected final, .done]

/-! ## Retry wrappers (`src/agents/retry.py`)

An operation under retry is a map `Nat → Except String A` giving the
result of its k-th invocation (0-indexed): `.ok` a return value, `.error`
an exception with that message.  Sleeps are recorded as rational delays;
the jitter factors `random.random() + 0.5` drawn before each sleep are a
parameter `jf : Nat → ℚ` indexed by the attempt. -/

/-- The transient-error markers `_RETRYABLE_SUBSTRINGS`. -/
def retryableSubstrings : List String :=
  ["rate limit", "timeout", "server error", "502", "503", "529"]

/-- Model of `_is_retryable`: the lowercased message contains a transient marker. -/
def isRetryable (msg : String) : Bool :=
  retryableSubstrings.any fun s => strContains (pyLower msg) s

/-- The delay computed for one retry (`retry.py` lines 54–56): exponential
backoff capped at `max_delay`, then the jitter factor applied **after** the
cap. -/
def retryDelay (base maxD : ℚ) (jitter : Bool) (jfac : ℚ) (attempt : Nat) : ℚ :=
  let d := min (base * 2 ^ attempt) maxD
  if jitter then d * jfac else d

/-- Observable trace of a wrapped call: number of invocations of the
underlying operation, the sleeps performed in order, and the final
outcome (`.error` = the exception that propagated). -/
structure RetryTrace (A : Type) where
  calls : Nat
  sleeps : List ℚ
  result : Except String A

/-- The loop of `retry_with_backoff.wrapper` (lines 47–66).  `remaining`
is `max_retries - attempt`; on each failure the wrapper re-raises when
`attempt == max_retries` or the error is not retryable, otherwise it
sleeps and retries. -/
def retryGo {A : Type} (op : Nat → Except String A) (base maxD : ℚ)
    (jitter : Bool) (jf : Nat → ℚ) :
    Nat → Nat → List ℚ → RetryTrace A
  | 0, attempt, sleeps =>
    match op attempt with
    | .ok a => ⟨attempt + 1, sleeps.reverse, .ok a⟩
    | .error e => ⟨attempt + 1, sleeps.reverse, .error e⟩
  | r + 1, attempt, sleeps =>
    match op attempt with
    | .ok a => ⟨attempt + 1, sleeps.reverse, .ok a⟩
    | .error e =>
      if isRetryable e then
        retryGo op base maxD jitter jf r (attempt + 1)
          (retryDelay base maxD jitter (jf attempt) attempt :: sleeps)
      else ⟨attempt + 1, sleeps.reverse, .error e⟩

/-- A call to a sync function wrapped by
`retry_with_backoff(max_retries, base_delay, max_delay, jitter)`. -/
def retryRun {A : Type} (maxRetries : Nat) (base maxD : ℚ) (jitter : Bool)
    (jf : Nat → ℚ) (op : Nat → Except String A) : RetryTrace A :=
  retryGo op base maxD jitter jf maxRetries 0 []

/-- The loop of `async_retry_with_backoff.wrapper` (lines 85–104) — same
algorithm with a suspending sleep. -/
def aretryGo {A : Type} (op : Nat → Except String A) (base maxD : ℚ)
    (jitter : Bool) (jf : Nat → ℚ) :
    Nat → Nat → List ℚ → RetryTrace A
  | 0, attempt, sleeps =>
    match op attempt with
    | .ok a => ⟨attempt + 1, sleeps.reverse, .ok a⟩
    | .error e => ⟨attempt + 1, sleeps.reverse, .error e⟩
  | r + 1, attempt, sleeps =>
    match op attempt with
    | .ok a => ⟨attempt + 1, sleeps.reverse, .ok a⟩
    | .error e =>
      if isRetryable e then
        aretryGo op base maxD jitter jf r (attempt + 1)
          (retryDelay base maxD jitter (jf attempt) attempt :: sleeps)
      else ⟨attempt + 1, sleeps.reverse, .error e⟩

/-- A call to an async function wrapped by `async_retry_with_backoff`. -/
def aretryRun {A : Type} (maxRetries : Nat) (base maxD : ℚ) (jitter : Bool)
    (jf : Nat → ℚ) (op : Nat → Except String A) : RetryTrace A :=
  aretryGo op base maxD jitter jf maxRetries 0 []

/-! ## Dictionary lemmas -/

/-- Assigning a key absent from the dict appends the pair. -/
theorem dictInsert_fresh (d : List (String × String)) (k v : String)
    (h : ∀ p ∈ d, p.1 ≠ k) : dictInsert d k v = d ++ [(k, v)] := by
  unfold dictInsert
  have ha : d.any (fun p => p.1 == k) = false := by
    simp only [List.any_eq_false]
    intro p hp
    simpa using h p hp
  simp [ha]

/-- Folding dict assignment over pairs with pairwise-distinct keys, all
fresh for the accumulator, appends them in order. -/
theorem foldl_dictInsert_pairs :
    ∀ (ps acc : List (String × String)),
      (ps.map Prod.fst).Nodup →
      (∀ q ∈ ps, ∀ p ∈ acc, p.1 ≠ q.1) →
      ps.foldl (fun d p => dictInsert d p.1 p.2) acc = acc ++ ps := by
  intro ps
  induction ps with
  | nil => intro acc _ _; simp
  | cons q ps ih =>
    intro acc hnd hfresh
    simp only [List.map_cons, List.nodup_cons] at hnd
    simp only [List.foldl_cons]
    rw [dictInsert_fresh acc q.1 q.2 (fun p hp => hfresh q (by simp) p hp)]
    rw [ih (acc ++ [q]) hnd.2 ?fresh]
    · simp
    case fresh =>
      intro r hr p hp
      rcases List.mem_append.1 hp with hpa | hpq
      · exact hfresh r (List.mem_cons_of_mem _ hr) p hpa
      · have hpq' : p = q := by simpa using hpq
        subst hpq'
        intro hEq
        exact hnd.1 (hEq ▸ List.mem_map_of_mem Prod.fst hr)

/-- Under a duplicate-free selection, both the sequential dict build of
`run` and the `dict(results)` build of `arun` are exactly the gathered
pair list. -/
theorem fanOut_eq_gather (outcome : String → Except String String)
    (selected : List String) (h : selected.Nodup) :
    fanOut outcome selected = gatherResults outcome selected ∧
    afanOut outcome selected = gatherResults outcome selected := by
  have hmapfst : (gatherResults outcome selected).map Prod.fst = selected := by
    simp [gatherResults, List.map_map, Function.comp_def]
  have hnd : ((gatherResults outcome selected).map Prod.fst).Nodup := by
    rw [hmapfst]; exact h
  have h2 := foldl_dictInsert_pairs (gatherResults outcome selected) [] hnd
    (by simp)
  constructor
  · unfold fanOut
    rw [show selected.foldl
          (fun d n => dictInsert d n (agentValue outcome n)) []
        = (gatherResults outcome selected).foldl
            (fun d p => dictInsert d p.1 p.2) [] by
      rw [gatherResults, List.foldl_map]]
    simpa using h2
  · unfold afanOut
    simpa using h2

/-! ## Router lemmas -/

/-- What the comprehension returns when no element raises: the string
elements that name a known agent, in emission order — no deduplication. -/
theorem filterAgents_ok_char :
    ∀ (elems : List Json) (l : List String),
      filterAgents elems = .ok l →
      l = (elems.filterMap strOf).filter (fun s => knownAgents.contains s) := by
  intro elems
  induction elems with
  | nil =>
    intro l h
    simp only [filterAgents] at h
    cases h
    simp
  | cons j rest ih =>
    intro l h
    cases j with
    | str s =>
      simp only [filterAgents, agentMembership] at h
      cases hr : filterAgents rest with
      | error e => rw [hr] at h; cases h
      | ok tail =>
        rw [hr] at h
        cases hc : knownAgents.contains s with
        | true =>
          rw [hc] at h
          cases h
          have hm : s ∈ knownAgents := by simpa using hc
          simp [strOf, List.filter_cons, hm, ih tail hr]
        | false =>
          rw [hc] at h
          cases h
          have hm : s ∉ knownAgents := by simpa using hc
          simpa [strOf, List.filter_cons, hm] using ih l hr
    | num q =>
      simp only [filterAgents, agentMembership] at h
      cases hr : filterAgents rest with
      | error e => rw [hr] at h; cases h
      | ok tail =>
        rw [hr] at h
        cases h
        simpa [strOf] using ih l hr
    | bool b =>
      simp only [filterAgents, agentMembership] at h
      cases hr : filterAgents rest with
      | error e => rw [hr] at h; cases h
      | ok tail =>
        rw [hr] at h
        cases h
        simpa [strOf] using ih l hr
    | null =>
      simp only [filterAgents, agentMembership] at h
      cases hr : filterAgents rest with
      | error e => rw [hr] at h; cases h
      | ok tail =>
        rw [hr] at h
        cases h
        simpa [strOf] using ih l hr
    | arr xs =>
      simp only [filterAgents, agentMembership] at h
      cases h
    | obj kvs =>
      simp only [filterAgents, agentMembership] at h
      cases h

/-- When every element is hashable and no string element names a known
agent, the comprehension succeeds and keeps nothing. -/
theorem filterAgents_no_known :
    ∀ (elems : List Json),
      (∀ j ∈ elems, hashableJson j = true) →
      (∀ s, Json.str s ∈ elems → s ∉ knownAgents) →
      filterAgents elems = .ok [] := by
  intro elems
  induction elems with
  | nil => intro _ _; rfl
  | cons j rest ih =>
    intro hhash hunk
    have htail : filterAgents rest = .ok [] :=
      ih (fun x hx => hhash x (List.mem_cons_of_mem j hx))
        (fun s hs => hunk s (List.mem_cons_of_mem j hs))
    cases j with
    | str s =>
      have hs : s ∉ knownAgents := hunk s (List.mem_cons_self _ _)
      simp [filterAgents, agentMembership, htail, hs]
    | num q => simp [filterAgents, agentMembership, htail]
    | bool b => simp [filterAgents, agentMembership, htail]
    | null => simp [filterAgents, agentMembership, htail]
    | arr xs =>
      have := hhash (Json.arr xs) (List.mem_cons_self _ _)
      simp [hashableJson] at this
    | obj kvs =>
      have := hhash (Json.obj kvs) (List.mem_cons_self _ _)
      simp [hashableJson] at this

/-! ## Claim theorems -/

/-- C1: for every capability set selected by the router (duplicate-free,
drawn from the fixed table) and every combination of per-specialist
success or failure, the sequential fan-out of `run` and the gathered
fan-out of `arun` both produce an `agent_outputs` mapping with exactly one
entry per selected capability — the text returned by the specialist on success,
the formatted error string on failure — dropping no capability. -/
theorem fanout_one_entry_per_capability
    (outcome : String → Except String String) (selected : List String)
    (hnd : selected.Nodup) (_hsub : ∀ n ∈ selected, n ∈ knownAgents) :
    fanOut outcome selected
        = selected.map (fun n => (n, agentValue outcome n))
    ∧ afanOut outcome selected
        = selected.map (fun n => (n, agentValue outcome n))
    ∧ (fanOut outcome selected).map Prod.fst = selected
    ∧ (∀ n text, outcome n = .ok text → agentValue outcome n = text)
    ∧ (∀ n msg, outcome n = .error msg →
        agentValue outcome n = formatAgentError n msg) := by
  obtain ⟨h1, h2⟩ := fanOut_eq_gather outcome selected hnd
  refine ⟨by simpa [gatherResults] using h1, by simpa [gatherResults] using h2,
    ?_, ?_, ?_⟩
  · rw [h1]
    simp [gatherResults, List.map_map, Function.comp_def]
  · intro n text h
    simp [agentValue, h]
  · intro n msg h
    simp [agentValue, h]

/-- Witness for C1 at a concrete two-capability set where one specialist
succeeds and the other raises. -/
theorem fanout_one_entry_per_capability_witness :
    (["nutrition", "quality"] : List String).Nodup
    ∧ (∀ n ∈ (["nutrition", "quality"] : List String), n ∈ knownAgents)
    ∧ fanOut (fun n => if n = "nutrition" then .ok "veg" else .error "down")
        ["nutrition", "quality"]
        = [("nutrition", "veg"), ("quality", "[Erro no agente quality: down]")] := by
  refine ⟨by decide, by decide, ?_⟩
  have h := (fanout_one_entry_per_capability
    (fun n => if n = "nutrition" then .ok "veg" else .error "down")
    ["nutrition", "quality"] (by decide) (by decide)).1
  rw [h]
  rfl

/-- C4: an operation wrapped by `retry_with_backoff` that fails with a
non-transient message (its lowercased text contains none of the transient
substrings, i.e. `_is_retryable` is false) is called exactly once, no
sleep occurs, and the original exception propagates unchanged. -/
theorem retry_nontransient_single_call {A : Type}
    (maxRetries : Nat) (base maxD : ℚ) (jitter : Bool) (jf : Nat → ℚ)
    (op : Nat → Except String A) (e : String)
    (h0 : op 0 = .error e) (hnr : isRetryable e = false) :
    retryRun maxRetries base maxD jitter jf op = ⟨1, [], .error e⟩ := by
  unfold retryRun
  cases maxRetries with
  | zero => simp [retryGo, h0]
  | succ r => simp [retryGo, h0, hnr]

/-- Witness for C4: a "bad input" failure is non-transient, the operation
runs once, no sleeps, the error propagates. -/
theorem retry_nontransient_single_call_witness :
    isRetryable "bad input" = false
    ∧ retryRun 3 1 30 true (fun _ => 1)
        (fun _ => (.error "bad input" : Except String Nat))
      = ⟨1, [], .error "bad input"⟩ :=
  ⟨by decide,
   retry_nontransient_single_call 3 1 30 true (fun _ => 1)
     (fun _ => (.error "bad input" : Except String Nat)) "bad input" rfl
     (by decide)⟩

/-- C5: under `max_retries=3`, an operation failing twice with a message
containing "rate limit" and succeeding on the third call returns the
value of the third call, is called exactly 3 times, and sleeps
`min(base_delay * 2^attempt, max_delay)` (jitter-scaled when enabled)
before each retry. -/
theorem retry_rate_limit_third_success {A : Type}
    (base maxD : ℚ) (jitter : Bool) (jf : Nat → ℚ)
    (op : Nat → Except String A) (e0 e1 : String) (v : A)
    (h0 : op 0 = .error e0) (h1 : op 1 = .error e1)
    (hc0 : strContains (pyLower e0) "rate limit" = true)
    (hc1 : strContains (pyLower e1) "rate limit" = true)
    (h2 : op 2 = .ok v) :
    retryRun 3 base maxD jitter jf op =
      ⟨3, [retryDelay base maxD jitter (jf 0) 0,
           retryDelay base maxD jitter (jf 1) 1], .ok v⟩
    ∧ (∀ a : Nat, retryDelay base maxD jitter (jf a) a
        = if jitter then min (base * 2 ^ a) maxD * jf a
          else min (base * 2 ^ a) maxD) := by
  have hr0 : isRetryable e0 = true := by
    simp [isRetryable, retryableSubstrings, hc0]
  have hr1 : isRetryable e1 = true := by
    simp [isRetryable, retryableSubstrings, hc1]
  constructor
  · unfold retryRun
    simp [retryGo, h0, h1, h2, hr0, hr1]
  · intro a
    simp [retryDelay]

/-- Witness for C5: two "Rate limit" failures then success, with
`base_delay=1`, `max_delay=30`, jitter factors pinned to 1. -/
theorem retry_rate_limit_third_success_witness :
    retryRun 3 1 30 true (fun _ => 1)
        (fun n => if n < 2 then .error "Rate limit exceeded" else .ok 7) =
      ⟨3, [retryDelay 1 30 true 1 0, retryDelay 1 30 true 1 1], .ok 7⟩ :=
  (retry_rate_limit_third_success 1 30 true (fun _ => 1)
    (fun n => if n < 2 then .error "Rate limit exceeded" else .ok 7)
    "Rate limit exceeded" "Rate limit exceeded" 7 rfl rfl (by decide)
    (by decide) rfl).1

/-- C2 counterexample: the classifier text `{"nutrition": 1}` is valid
JSON whose value is not an array, so "parse as a JSON array" fails — yet
the router iterates the dict keys and returns `["nutrition"]`, not the
`["recommendation"]` fallback. -/
theorem route_nonarray_counterexample :
    parseJson (routePre "\x7b\"nutrition\": 1\x7d")
      = some (Json.obj [("nutrition", Json.num "1")])
    ∧ route "\x7b\"nutrition\": 1\x7d" = ["nutrition"]
    ∧ route "\x7b\"nutrition\": 1\x7d" ≠ ["recommendation"] :=
  ⟨rfl, rfl, by decide⟩

/-- C2 (amended): the router returns exactly `["recommendation"]` for
every classifier text whose processing raises an exception — malformed
JSON, a parsed value that is not iterable (number, boolean, null), or an
iterable whose filtering raises (an unhashable array/object element).  A
parsed non-array that is iterable (object, string) is instead iterated
and filtered like an array. -/
theorem route_fallback_on_raise :
    (∀ content, parseJson (routePre content) = none →
      route content = ["recommendation"])
    ∧ (∀ content j, parseJson (routePre content) = some j →
        pyIterElems j = .error () → route content = ["recommendation"])
    ∧ (∀ content j elems, parseJson (routePre content) = some j →
        pyIterElems j = .ok elems → filterAgents elems = .error () →
        route content = ["recommendation"]) := by
  refine ⟨?_, ?_, ?_⟩
  · intro content h
    simp [route, routeParse, h]
  · intro content j h1 h2
    simp [route, routeParse, h1, h2]
  · intro content j elems h1 h2 h3
    simp [route, routeParse, h1, h2, h3]

/-- Witness for C2 (amended): malformed classifier text falls back. -/
theorem route_fallback_on_raise_witness :
    route "invalid json!!!" = ["recommendation"] :=
  route_fallback_on_raise.1 "invalid json!!!" rfl

/-- C3: for every classifier output text, every capability identifier the
router returns belongs to the fixed closed set
`{"nutrition", "recommendation", "quality"}` — unknown identifiers are
filtered out, and the fallback path also stays inside the set. -/
theorem route_subset_closed_set (content a : String)
    (h : a ∈ route content) : a ∈ knownAgents := by
  unfold route at h
  cases hp : routeParse (routePre content) with
  | error e =>
    simp only [hp] at h
    have ha : a = "recommendation" := by simpa using h
    subst ha
    simp [knownAgents]
  | ok l =>
    simp only [hp] at h
    unfold routeParse at hp
    cases hj : parseJson (routePre content) with
    | none => simp only [hj] at hp; cases hp
    | some j =>
      simp only [hj] at hp
      cases hi : pyIterElems j with
      | error e => simp only [hi] at hp; cases hp
      | ok elems =>
        simp only [hi] at hp
        have hchar := filterAgents_ok_char elems l hp
        subst hchar
        have hmem := List.of_mem_filter h
        simpa using hmem

/-- Witness for C3 at a concrete classifier output. -/
theorem route_subset_closed_set_witness :
    "nutrition" ∈ route "[\"nutrition\"]"
    ∧ "nutrition" ∈ knownAgents :=
  ⟨by decide, route_subset_closed_set "[\"nutrition\"]" "nutrition" (by decide)⟩

/-- C7 counterexample: the comprehension in `_route` does not
deduplicate — classifier output `["nutrition", "nutrition"]` yields a list
in which "nutrition" occurs twice. -/
theorem route_duplicate_counterexample :
    route "[\"nutrition\", \"nutrition\"]" = ["nutrition", "nutrition"]
    ∧ (route "[\"nutrition\", \"nutrition\"]").count "nutrition" = 2
    ∧ ¬ (route "[\"nutrition\", \"nutrition\"]").Nodup :=
  ⟨rfl, by decide, by decide⟩

/-- C7 (amended): for every classifier output whose parsing and filtering
succeed, the capability list the router returns is the list of classifier
string elements that name a known capability, in the classifier emission
order — unknown identifiers dropped, duplicates preserved (no
deduplication). -/
theorem route_filter_preserves_order
    (content : String) (j : Json) (elems : List Json) (l : List String)
    (h1 : parseJson (routePre content) = some j)
    (h2 : pyIterElems j = .ok elems)
    (h3 : filterAgents elems = .ok l) :
    route content = l
    ∧ l = (elems.filterMap strOf).filter (fun s => knownAgents.contains s) := by
  constructor
  · simp [route, routeParse, h1, h2, h3]
  · exact filterAgents_ok_char elems l h3

/-- Witness for C7 (amended): `["nutrition", "unknown_agent", "quality"]`
filters to `["nutrition", "quality"]` in emission order. -/
theorem route_filter_preserves_order_witness :
    route "[\"nutrition\", \"unknown_agent\", \"quality\"]"
      = ["nutrition", "quality"] :=
  (route_filter_preserves_order "[\"nutrition\", \"unknown_agent\", \"quality\"]"
    (Json.arr [Json.str "nutrition", Json.str "unknown_agent", Json.str "quality"])
    [Json.str "nutrition", Json.str "unknown_agent", Json.str "quality"]
    ["nutrition", "quality"] rfl rfl rfl).1

/-- C6: the consolidation step runs exactly once per request with no retry
wrapper; an exception it raises propagates out of `run` / `arun` unchanged
as the terminal outcome (no fallback text), while specialist failures —
`outcome` is arbitrary here, including all-failing — never prevent a
successful result when consolidation succeeds. -/
theorem consolidation_single_unguarded
    (consolidate : List (String × String) → Except String String)
    (outcome : String → Except String String) (query : String)
    (selected : List String) :
    (run consolidate outcome query selected).consolidateCalls = 1
    ∧ (arun consolidate outcome query selected).consolidateCalls = 1
    ∧ (∀ e, consolidate (fanOut outcome selected) = .error e →
        (run consolidate outcome query selected).outcome = .error e)
    ∧ (∀ final, consolidate (fanOut outcome selected) = .ok final →
        (run consolidate outcome query selected).outcome
          = .ok ⟨query, selected, fanOut outcome selected, final⟩)
    ∧ (∀ e, consolidate (afanOut outcome selected) = .error e →
        (arun consolidate outcome query selected).outcome = .error e)
    ∧ (∀ final, consolidate (afanOut outcome selected) = .ok final →
        (arun consolidate outcome query selected).outcome
          = .ok ⟨query, selected, afanOut outcome selected, final⟩) := by
  refine ⟨?_, ?_, ?_, ?_, ?_, ?_⟩
  · unfold run
    cases h : consolidate (fanOut outcome selected) <;> simp [h]
  · unfold arun
    cases h : consolidate (afanOut outcome selected) <;> simp [h]
  · intro e h
    unfold run
    simp [h]
  · intro final h
    unfold run
    simp [h]
  · intro e h
    unfold arun
    simp [h]
  · intro final h
    unfold arun
    simp [h]

/-- Witness for C6: a failing consolidation is terminal with its error
unchanged, and an all-failing specialist set still produces a complete
result when consolidation succeeds. -/
theorem consolidation_single_unguarded_witness :
    (run (fun _ => .error "llm down") (fun _ => .error "store down") "q"
        ["nutrition"]).outcome = .error "llm down"
    ∧ (run (fun _ => .ok "final") (fun _ => .error "store down") "q"
        ["nutrition"]).outcome
      = .ok ⟨"q", ["nutrition"],
             fanOut (fun _ => .error "store down") ["nutrition"], "final"⟩ :=
  ⟨(consolidation_single_unguarded (fun _ => .error "llm down")
      (fun _ => .error "store down") "q" ["nutrition"]).2.2.1 "llm down" rfl,
   (consolidation_single_unguarded (fun _ => .ok "final")
      (fun _ => .error "store down") "q" ["nutrition"]).2.2.2.1 "final" rfl⟩

/-- C8: the event sequence of the streaming endpoint is finite and ordered:
one `routing` event, one `agent` event per selected capability in
completion order (carrying the capability name and its output-or-error),
then a `response` event with the consolidated text and capability set and
a `done` event; if routing raises, the stream is a single `error` event,
and if consolidation raises, a single `error` event replaces the
`response` and `done` events. -/
theorem stream_event_protocol
    (query routeErr : String) (selected order : List String)
    (outcome : String → Except String String)
    (consolidate : List (String × String) → Except String String)
    (hperm : order.Perm selected) :
    eventStream (.error routeErr) order outcome consolidate query
      = [.error routeErr]
    ∧ (∀ final, consolidate (fanOut outcome order) = .ok final →
        eventStream (.ok selected) order outcome consolidate query
          = .routing selected
              :: (order.map fun n => StreamEvent.agent n (agentValue outcome n))
              ++ [.response query selected final, .done])
    ∧ (∀ e, consolidate (fanOut outcome order) = .error e →
        eventStream (.ok selected) order outcome consolidate query
          = .routing selected
              :: (order.map fun n => StreamEvent.agent n (agentValue outcome n))
              ++ [.error e])
    ∧ (order.map fun n => StreamEvent.agent n (agentValue outcome n)).length
        = selected.length := by
  refine ⟨rfl, ?_, ?_, ?_⟩
  · intro final h
    unfold eventStream
    simp only [fanOut] at h
    simp [h]
  · intro e h
    unfold eventStream
    simp only [fanOut] at h
    simp [h]
  · simp [hperm.length_eq]

/-- Witness for C8: one succeeding and one failing specialist, completion
order reversed from selection order, successful consolidation. -/
theorem stream_event_protocol_witness :
    (["quality", "nutrition"] : List String).Perm ["nutrition", "quality"]
    ∧ eventStream (.ok ["nutrition", "quality"]) ["quality", "nutrition"]
        (fun n => if n = "nutrition" then .ok "veg" else .error "down")
        (fun _ => .ok "final") "q"
      = .routing ["nutrition", "quality"]
          :: (["quality", "nutrition"].map fun n =>
               StreamEvent.agent n
                 (agentValue
                   (fun n => if n = "nutrition" then .ok "veg" else .error "down")
                   n))
          ++ [.response "q" ["nutrition", "quality"] "final", .done] := by
  constructor
  · decide
  · exact (stream_event_protocol "q" "x" ["nutrition", "quality"]
      ["quality", "nutrition"]
      (fun n => if n = "nutrition" then .ok "veg" else .error "down")
      (fun _ => .ok "final") (by decide)).2.1 "final" rfl

/-- C9 counterexample: the classifier text `[["bogus"]]` is a valid JSON
array containing no known capability identifiers, yet the router does not
return the empty list — the nested list element is unhashable, so the
membership test raises `TypeError` and the `except` clause returns the
`["recommendation"]` fallback. -/
theorem route_unhashable_counterexample :
    parseJson (routePre "[[\"bogus\"]]")
      = some (Json.arr [Json.arr [Json.str "bogus"]])
    ∧ route "[[\"bogus\"]]" = ["recommendation"]
    ∧ route "[[\"bogus\"]]" ≠ [] :=
  ⟨rfl, rfl, by decide⟩

/-- C9 (amended): when the classifier output parses as a valid JSON array
whose elements are all hashable (no nested arrays or objects) and none of
whose string elements names a known capability (for example `["bogus"]`
or `[]`), the router returns the empty list rather than the fallback, and
`run` / `arun` then invoke zero specialists, still call consolidation
exactly once on an empty `agent_outputs` mapping, and return a complete
`OrchestrationResult`.  An unhashable element instead raises inside the
comprehension and triggers the `["recommendation"]` fallback. -/
theorem empty_capability_set_run
    (content : String) (elems : List Json)
    (consolidate : List (String × String) → Except String String)
    (outcome : String → Except String String) (query final : String)
    (hp : parseJson (routePre content) = some (Json.arr elems))
    (hhash : ∀ j ∈ elems, hashableJson j = true)
    (hunk : ∀ s, Json.str s ∈ elems → s ∉ knownAgents)
    (hc : consolidate [] = .ok final) :
    route content = []
    ∧ fanOut outcome [] = [] ∧ afanOut outcome [] = []
    ∧ run consolidate outcome query (route content)
        = ⟨1, .ok ⟨query, [], [], final⟩⟩
    ∧ arun consolidate outcome query (route content)
        = ⟨1, .ok ⟨query, [], [], final⟩⟩ := by
  have hfa : filterAgents elems = .ok [] := filterAgents_no_known elems hhash hunk
  have hroute : route content = [] := by
    simp [route, routeParse, hp, pyIterElems, hfa]
  refine ⟨hroute, rfl, rfl, ?_, ?_⟩
  · rw [hroute]
    unfold run
    simp [fanOut, hc]
  · rw [hroute]
    unfold arun
    simp [afanOut, gatherResults, hc]

/-- Witness for C9 (amended) at classifier output `["bogus"]` with a
constant consolidator and a failing specialist environment. -/
theorem empty_capability_set_run_witness :
    parseJson (routePre "[\"bogus\"]") = some (Json.arr [Json.str "bogus"])
    ∧ route "[\"bogus\"]" = []
    ∧ run (fun _ => .ok "sem dados") (fun _ => .error "x") "q"
        (route "[\"bogus\"]")
      = ⟨1, .ok ⟨"q", [], [], "sem dados"⟩⟩ := by
  have h := empty_capability_set_run "[\"bogus\"]" [Json.str "bogus"]
    (fun _ => .ok "sem dados") (fun _ => .error "x") "q" "sem dados" rfl
    (by intro j hj; rw [List.mem_singleton] at hj; subst hj; rfl)
    (by intro s hs; rw [List.mem_singleton] at hs; injection hs with he;
        subst he; decide)
    rfl
  exact ⟨rfl, h.1, h.2.2.2.1⟩

/-- C10: in both retry wrappers the jitter factor multiplies the delay
*after* the `max_delay` cap: with jitter on and factor in `[1/2, 3/2)`,
the sleep lies in `[cap/2, 3*cap/2)` where `cap = min(base*2^attempt,
max_delay)`, and can exceed `max_delay` (e.g. 42 > 30); `max_delay` is a
hard bound only with jitter off.  Both `retryRun` and `aretryRun` sleep
exactly this `retryDelay`. -/
theorem jitter_applied_after_cap {A : Type}
    (base maxD jfac : ℚ) (att : Nat) (jf : Nat → ℚ)
    (op : Nat → Except String A) (e : String) (v : A)
    (hj1 : 1/2 ≤ jfac) (hj2 : jfac < 3/2) (hb : 0 < base) (hm : 0 < maxD)
    (hop0 : op 0 = .error e) (hre : isRetryable e = true)
    (hop1 : op 1 = .ok v) :
    retryDelay base maxD true jfac att = min (base * 2 ^ att) maxD * jfac
    ∧ (1/2) * min (base * 2 ^ att) maxD ≤ retryDelay base maxD true jfac att
    ∧ retryDelay base maxD true jfac att < (3/2) * min (base * 2 ^ att) maxD
    ∧ retryDelay base maxD false jfac att ≤ maxD
    ∧ (30 : ℚ) < retryDelay 1 30 true (7/5) 6
    ∧ (retryRun 2 base maxD true jf op).sleeps
        = [retryDelay base maxD true (jf 0) 0]
    ∧ (aretryRun 2 base maxD true jf op).sleeps
        = [retryDelay base maxD true (jf 0) 0] := by
  have hcap : 0 < min (base * 2 ^ att) maxD :=
    lt_min (mul_pos hb (by positivity)) hm
  have heq : retryDelay base maxD true jfac att
      = min (base * 2 ^ att) maxD * jfac := by
    simp [retryDelay]
  refine ⟨heq, ?_, ?_, ?_, ?_, ?_, ?_⟩
  · rw [heq]
    nlinarith [hcap, hj1]
  · rw [heq]
    nlinarith [hcap, hj2]
  · simp only [retryDelay]
    exact min_le_right _ _
  · norm_num [retryDelay, min_def]
  · unfold retryRun
    simp [retryGo, hop0, hop1, hre]
  · unfold aretryRun
    simp [aretryGo, hop0, hop1, hre]

/-- Witness for C10 at `base_delay=1`, `max_delay=30`, jitter factor
`7/5`. -/
theorem jitter_applied_after_cap_witness :
    ((1 : ℚ)/2 ≤ 7/5 ∧ (7/5 : ℚ) < 3/2 ∧ isRetryable "timeout" = true)
    ∧ (retryRun 2 1 30 true (fun _ => 7/5)
        (fun n => if n = 0 then .error "timeout" else .ok 3)).sleeps
      = [retryDelay 1 30 true (7/5) 0] :=
  ⟨⟨by norm_num, by norm_num, by decide⟩,
   (jitter_applied_after_cap 1 30 (7/5) 0 (fun _ => 7/5)
     (fun n => if n = 0 then .error "timeout" else .ok 3) "timeout" 3
     (by norm_num) (by norm_num) (by norm_num) (by norm_num) rfl (by decide)
     rfl).2.2.2.2.2.1⟩

end SaborIA
